import Mathlib

/-!
Verification of the SHM sensor gateway core against its specification.

The definitions below are a shallow embedding of the Python sources:
* `modules/packet.py` — `PacketHandler._validate_format_and_extract_frame`
  (framing), `PacketHandler._parse_payload_content` (payload decoding),
  `PacketHandler._guard_header_timestamp` (header timestamp guard),
  `PacketHandler.__handle_alarm_event` (history ring buffer),
  `PacketHandler.crc32_header_without_crc` (header CRC).
* `modules/storer.py` — `AccelerometerStorer.save`,
  `AccelerometerStorer.__validate_timestamps`,
  `AccelerometerStorer.__setup_output_stream`,
  `AccelerometerStorer.__close_file`.

Bytes are modelled as `Nat` (< 256 in all concrete inputs), byte strings as
`List Nat`, Python `None`-able integers as `Option Nat`, and raised
exceptions as explicit error values.
-/

namespace SHM

/-! ## Framing: `PacketHandler._validate_format_and_extract_frame` -/

/-- The two accepted sync preambles `A5 5A` and `5A A5`
(`PacketHandler._SYNC_SET`). -/
def isSyncPair (a b : Nat) : Bool :=
  (a == 0xA5 && b == 0x5A) || (a == 0x5A && b == 0xA5)

/-- `True` iff a sync word starts at offset `i` of `buf` (used to model both
`buf.find(sync)` hits and the `boundary in SYNC_SET` membership tests). -/
def isSyncAt (buf : List Nat) (i : Nat) : Bool :=
  match buf.drop i with
  | a :: b :: _ => isSyncPair a b
  | _ => false

/-- Index of the first sync word in `buf`
(`_find_any_sync(buf, 0)`: the minimum of the two `bytes.find` results). -/
def findSync : List Nat → Option Nat
  | a :: b :: rest =>
    if isSyncPair a b then some 0
    else (findSync (b :: rest)).map (· + 1)
  | _ => none

/-- Index of the first sync word in `buf` at offset ≥ `s`
(`_find_any_sync(buf, s)`). -/
def findSyncFrom (buf : List Nat) (s : Nat) : Option Nat :=
  (findSync (buf.drop s)).map (· + s)

/-- Python's `buf[-1:]`. -/
def lastByte (buf : List Nat) : List Nat :=
  buf.drop (buf.length - 1)

/-- Resynchronisation used by the CRC-strict path and the boundary-desync
fallback: keep from the next sync at offset ≥ 1, or keep only the last byte
(`_find_any_sync(buf, 1)` followed by `buf[j:]` / `buf[-1:]`). -/
def resyncFromOne (buf : List Nat) : List Nat :=
  match findSyncFrom buf 1 with
  | none => lastByte buf
  | some j => buf.drop j

/-! ### CRC-32 (IEEE 802.3, reflected, poly 0xEDB88320) — `zlib.crc32` -/

/-- One bit-step of the reflected CRC-32 with polynomial `0xEDB88320`. -/
def crcBitStep (c : Nat) : Nat :=
  if c % 2 = 1 then (c / 2) ^^^ 0xEDB88320 else c / 2

/-- Fold one byte into the CRC accumulator (8 bit-steps). -/
def crcByteStep (c b : Nat) : Nat :=
  (crcBitStep^[8]) (c ^^^ b)

/-- `zlib.crc32(data) & 0xFFFFFFFF` (`PacketHandler.crc32_ieee`). -/
def crc32_ieee (data : List Nat) : Nat :=
  (data.foldl crcByteStep 0xFFFFFFFF) ^^^ 0xFFFFFFFF

/-- `PacketHandler.crc32_header_without_crc`: CRC-32 over the header minus
its trailing 4 bytes (`header[:-4]`). -/
def crc32_header_without_crc (header : List Nat) : Nat :=
  crc32_ieee (header.take (header.length - 4))

/-- `int.from_bytes(bs, "little")` for a 4-byte string. -/
def leU32 (bs : List Nat) : Nat :=
  match bs with
  | [b0, b1, b2, b3] => b0 + 256 * b1 + 65536 * b2 + 16777216 * b3
  | _ => 0

/-- The stored CRC field `header[-4:]` as a little-endian u32. -/
def storedHeaderCrc (header : List Nat) : Nat :=
  leU32 (header.drop (header.length - 4))

/-! ### Framer configuration and the extraction step -/

/-- The `PacketHandler` fields consulted by the framer. -/
structure FramerCfg where
  /-- `self.data_header_size` -/
  hlen : Nat
  /-- `self.data_report_size` -/
  rlen : Nat
  /-- `self.nreports_default` -/
  ndef : Nat
  /-- `self.header_crc32_enabled` -/
  crcEnabled : Bool
  /-- `self.header_crc32_strict` -/
  crcStrict : Bool
deriving DecidableEq

/-- Expected total frame length computed from the header preamble:
`nreports_hdr = pre1 & 0x0F`, `header_only = (pre2 >> 3) & 1`,
`expected_total = hlen` if header-only else
`hlen + (nreports_hdr or default) * rlen`. -/
def expectedTotalOf (hlen rlen ndef : Nat) (header : List Nat) : Nat :=
  let pre1 := header.getD 2 0
  let pre2 := header.getD 3 0
  let nreportsHdr := pre1 % 16
  let headerOnly := pre2 / 8 % 2 == 1
  if headerOnly then hlen
  else hlen + (if nreportsHdr > 0 then nreportsHdr else ndef) * rlen

/-- Steps 3–7 of `_validate_format_and_extract_frame`, applied to a buffer
that already starts at a sync word and holds at least a full header. -/
def framerTail (hlen rlen ndef : Nat) (buf : List Nat) :
    Option (List Nat) × List Nat :=
  let header := buf.take hlen
  let expectedTotal := expectedTotalOf hlen rlen ndef header
  if buf.length < expectedTotal then (none, buf)
  else if expectedTotal + 2 ≤ buf.length ∧ isSyncAt buf expectedTotal = false then
    -- boundary bytes after the frame are not a sync word
    match findSyncFrom buf 2 with
    | some j1 =>
      if j1 ≠ expectedTotal then (none, buf.drop j1)
      else (none, resyncFromOne buf)
    | none => (none, resyncFromOne buf)
  else
    -- emit the frame, then the post-emit boundary re-check (step 6)
    let frame := buf.take expectedTotal
    let rest := buf.drop expectedTotal
    let rest' :=
      if 2 ≤ rest.length ∧ isSyncAt rest 0 = false then resyncFromOne rest
      else rest
    (some frame, rest')

/-- `_validate_format_and_extract_frame` after garbage before the sync has
been discarded: the header-availability check, the CRC check, and then
`framerTail`. -/
def framerCore (cfg : FramerCfg) (buf : List Nat) :
    Option (List Nat) × List Nat :=
  if buf.length < cfg.hlen then (none, buf)
  else
    let header := buf.take cfg.hlen
    if cfg.crcEnabled = true ∧ 40 ≤ cfg.hlen ∧
        storedHeaderCrc header ≠ crc32_header_without_crc header then
      if cfg.crcStrict then (none, resyncFromOne buf)
      else framerTail cfg.hlen cfg.rlen cfg.ndef buf
    else framerTail cfg.hlen cfg.rlen cfg.ndef buf

/-- One invocation of `_validate_format_and_extract_frame` on buffer `buf`:
returns the extracted frame (or `none`) together with the new value of
`self.buffer`. -/
def framerStep (cfg : FramerCfg) (buf : List Nat) :
    Option (List Nat) × List Nat :=
  if buf.isEmpty then (none, buf)
  else
    match findSync buf with
    | none => (none, if 1 < buf.length then lastByte buf else buf)
    | some i => framerCore cfg (buf.drop i)

/-- The extraction loop of `__parse_data`: call the framer until it returns
no frame; collect the emitted frames in order (fuel-bounded). -/
def framerRun (cfg : FramerCfg) : Nat → List Nat → List (List Nat) × List Nat
  | 0, buf => ([], buf)
  | fuel + 1, buf =>
    match framerStep cfg buf with
    | (none, buf') => ([], buf')
    | (some f, buf') =>
      let r := framerRun cfg fuel buf'
      (f :: r.1, r.2)

/-- A well-formed frame for configuration `cfg`: it starts with a valid sync
word and its size is exactly the expected total the framer computes from its
own header bytes. -/
def WFframe (cfg : FramerCfg) (f : List Nat) : Bool :=
  isSyncAt f 0 && f.length == expectedTotalOf cfg.hlen cfg.rlen cfg.ndef (f.take cfg.hlen)

/-- Concatenation of a list of frames into one byte stream. -/
def flattenFrames (l : List (List Nat)) : List Nat :=
  l.foldr (· ++ ·) []

/-! ## Storer: `AccelerometerStorer` (`modules/storer.py`) -/

/-- Python truthiness of an `Option Nat` field (`None` and `0` are falsy). -/
def truthy : Option Nat → Bool
  | none => false
  | some n => n != 0

/-- Render an optional integer the way a Python f-string would. -/
def optStr : Option Nat → String
  | none => "None"
  | some n => toString n

/-- `mac.replace(":", "")` from `AccelerometerStorer.__init__`. -/
def stripColons (s : String) : String :=
  String.mk (s.toList.filter (fun c => c ≠ ':'))

/-- The `AccelerometerStorer` configuration fields. -/
structure StorerCfg where
  /-- `self.mac` (colons already stripped) -/
  mac : String
  /-- `self.frequency` -/
  frequency : Nat
  /-- `self.file_duration` -/
  fileDuration : Nat
  /-- `self.directory` -/
  dataDir : String
deriving DecidableEq

/-- `AccelerometerStorer.__init__`: strips the colons out of the raw MAC. -/
def initStorerCfg (rawMac : String) (frequency fileDuration : Nat)
    (dataDir : String) : StorerCfg :=
  ⟨stripColons rawMac, frequency, fileDuration, dataDir⟩

/-- The mutable `AccelerometerStorer` fields driven by `save`. -/
structure StorerState where
  /-- `self.output_stream_counter` -/
  counter : Nat
  /-- `self.output_stream` is not `None` -/
  streamOpen : Bool
  /-- `self.start_delta_timestamp` -/
  startDelta : Option Nat
  /-- `self.last_delta_timestamp` -/
  lastDelta : Option Nat
  /-- `self.begin_tStamp_filename` -/
  beginT : Option Nat
deriving DecidableEq

/-- The state right after `__init__`. -/
def initStorerState : StorerState :=
  ⟨0, false, none, none, none⟩

/-- Observable filesystem effects of the storer. -/
inductive StorerEvent where
  /-- a temp file was opened at `path` -/
  | openedTemp (path : String)
  /-- `nbytes` bytes were written, starting with the 4-byte delta `delta` -/
  | wrote (delta nbytes : Nat)
  /-- `os.replace(src, dst)` -/
  | renamed (src dst : String)
deriving DecidableEq

/-- The errors `save` can raise: the explicit invalid-timestamp `ValueError`
and the `OverflowError` escaping from `int.to_bytes(4, ...)`. -/
inductive SErr where
  | invalidTs
  | overflow
deriving DecidableEq

/-- Temp-file name `f'shm_{self.mac}_05_{self.begin_tStamp_filename}.dat'`. -/
def tempFilename (mac : String) (t0 : Option Nat) : String :=
  "shm_" ++ mac ++ "_05_" ++ optStr t0 ++ ".dat"

/-- Destination name
`f'shm_{self.mac}_05_{self.begin_tStamp_filename}_{self.end_tStamp_filename}'`. -/
def dstFilename (mac : String) (t0 t1 : Option Nat) : String :=
  "shm_" ++ mac ++ "_05_" ++ optStr t0 ++ "_" ++ optStr t1

/-- `AccelerometerStorer.__close_file`: when a stream is open, rename the
temp file into the data directory (with `end_tStamp := last_delta`); always
reset the byte counter and the start-delta timestamp. -/
def close_file (cfg : StorerCfg) (s : StorerState) :
    StorerState × List StorerEvent :=
  if s.streamOpen then
    let src := cfg.dataDir ++ "/.temp/" ++ tempFilename cfg.mac s.beginT
    let dst := cfg.dataDir ++ "/" ++ dstFilename cfg.mac s.beginT s.lastDelta
    (⟨0, false, none, s.lastDelta, s.beginT⟩, [.renamed src dst])
  else
    ({ s with counter := 0, startDelta := none }, [])

/-- `AccelerometerStorer.__setup_output_stream`: lazily open the temp file,
recording `begin_tStamp := start_delta_timestamp`. -/
def setup_output_stream (cfg : StorerCfg) (s : StorerState) :
    StorerState × List StorerEvent :=
  if s.streamOpen then (s, [])
  else
    ({ s with beginT := s.startDelta, streamOpen := true },
     [.openedTemp (cfg.dataDir ++ "/.temp/" ++ tempFilename cfg.mac s.startDelta)])

/-- Outcome of `__validate_timestamps`. -/
inductive VOut where
  /-- the function returned `None` (timestamp at or below the ms threshold) -/
  | invalid
  /-- `int.to_bytes(4, 'little')` raised `OverflowError` -/
  | raise
  /-- the 4-byte little-endian encoding of `delta` was returned -/
  | bytes (delta : Nat) (bs : List Nat)
deriving DecidableEq

/-- `delta.to_bytes(4, byteorder='little')` for `delta < 2^32`. -/
def toBytes4LE (n : Nat) : List Nat :=
  [n % 256, n / 256 % 256, n / 65536 % 256, n / 16777216 % 256]

/-- The µs-unit detection threshold `1748262041001092` of
`__validate_timestamps`. -/
def US_THRESHOLD : Nat := 1748262041001092

/-- The ms-unit detection threshold `1748262041001` of
`__validate_timestamps`. -/
def MS_THRESHOLD : Nat := 1748262041001

/-- `micro_gap_us = int(2_000_000)`. -/
def MICRO_GAP_US : Nat := 2000000

/-- `milli_gap_ms = int(2_000)`. -/
def MILLI_GAP_MS : Nat := 2000

/-- Tail of `__validate_timestamps`: update `last_delta_timestamp` and
compute `(current - start).to_bytes(4, 'little')`, which raises when the
delta is negative or does not fit in 4 bytes. -/
def finishValidate (s : StorerState) (ev : List StorerEvent) (cur : Nat) :
    StorerState × List StorerEvent × VOut :=
  let s := { s with lastDelta := some cur }
  let start := s.startDelta.getD 0
  if cur < start then (s, ev, .raise)
  else if cur - start < 4294967296 then
    (s, ev, .bytes (cur - start) (toBytes4LE (cur - start)))
  else (s, ev, .raise)

/-- `AccelerometerStorer.__validate_timestamps`: set the start-delta
timestamp if unset (falsy), detect the unit by thresholds, rotate the file
when the gap since the previous sample exceeds 2 s, reject pre-threshold
timestamps, and encode the delta. -/
def validate_timestamps (cfg : StorerCfg) (s : StorerState) (cur : Nat) :
    StorerState × List StorerEvent × VOut :=
  let s := if truthy s.startDelta then s else { s with startDelta := some cur }
  if US_THRESHOLD < cur then
    let p :=
      if truthy s.lastDelta ∧ s.lastDelta.getD 0 + MICRO_GAP_US < cur then
        let c := close_file cfg s
        ({ c.1 with startDelta := some cur }, c.2)
      else (s, ([] : List StorerEvent))
    finishValidate p.1 p.2 cur
  else if MS_THRESHOLD < cur then
    let p :=
      if truthy s.lastDelta ∧ s.lastDelta.getD 0 + MILLI_GAP_MS < cur then
        let c := close_file cfg s
        ({ c.1 with startDelta := some cur }, c.2)
      else (s, ([] : List StorerEvent))
    finishValidate p.1 p.2 cur
  else
    (s, [], .invalid)

/-- `AccelerometerStorer.save` for one sample whose channel data joins to
`pbytes` bytes and whose timestamp is `cur`: validate/encode the timestamp,
lazily open the stream, write `4 + pbytes` bytes, and close the file once
the counter reaches `len(data) * frequency * file_duration`. -/
def save (cfg : StorerCfg) (s : StorerState) (pbytes cur : Nat) :
    (StorerState × List StorerEvent) × Option SErr :=
  match validate_timestamps cfg s cur with
  | (s, ev, .invalid) => ((s, ev), some .invalidTs)
  | (s, ev, .raise) => ((s, ev), some .overflow)
  | (s, ev, .bytes delta bs) =>
    let recLen := bs.length + pbytes
    let p := setup_output_stream cfg s
    let s := { p.1 with counter := p.1.counter + recLen }
    let ev := ev ++ p.2 ++ [.wrote delta recLen]
    if recLen * cfg.frequency * cfg.fileDuration ≤ s.counter then
      let c := close_file cfg s
      ((c.1, ev ++ c.2), none)
    else ((s, ev), none)

/-- Summary of a sequence of `save` calls (errors are caught by the caller,
which keeps going, as `_parse_payload_content` does). -/
structure RunOut where
  finalState : StorerState
  renames : Nat
  deltas : List Nat
  errors : List SErr
deriving DecidableEq

/-- Number of `renamed` events (file rotations). -/
def countRenames (ev : List StorerEvent) : Nat :=
  (ev.filter (fun e => match e with | .renamed _ _ => true | _ => false)).length

/-- Deltas of all `wrote` events, in order. -/
def writeDeltas (ev : List StorerEvent) : List Nat :=
  ev.filterMap (fun e => match e with | .wrote d _ => some d | _ => none)

/-- Run `save` over a list of timestamps, collecting rotations, written
deltas and errors. -/
def saveRun (cfg : StorerCfg) (pbytes : Nat) :
    StorerState → List Nat → RunOut
  | s, [] => ⟨s, 0, [], []⟩
  | s, t :: ts =>
    let r := save cfg s pbytes t
    let rest := saveRun cfg pbytes r.1.1 ts
    ⟨rest.finalState, countRenames r.1.2 + rest.renames,
     writeDeltas r.1.2 ++ rest.deltas,
     (match r.2 with | some e => [e] | none => []) ++ rest.errors⟩

/-! ## Payload decoding: `PacketHandler._parse_payload_content` -/

/-- The report slices `payload[k*rlen : k*rlen + rlen]` for `k < n`. -/
def decodeReports (p : List Nat) (n rlen : Nat) : List (List Nat) :=
  (List.range n).map (fun k => (p.drop (k * rlen)).take rlen)

/-- `PacketHandler._parse_payload_content`, reduced to which report records
it decodes: `none` when the undersized frame is dropped, otherwise the list
of 52-byte records (oversize payloads are truncated first). -/
def parse_payload_content (ndef rlen hdrNreports : Nat) (payload : List Nat) :
    Option (List (List Nat)) :=
  let nreports := if 0 < hdrNreports then hdrNreports else ndef
  let expected := nreports * rlen
  let got := payload.length
  if got ≠ expected then
    if got < expected then none
    else some (decodeReports (payload.take expected) nreports rlen)
  else some (decodeReports payload nreports rlen)

/-! ## Alarm pre-roll history: `PacketHandler.__handle_alarm_event` -/

/-- The history update at the end of `__handle_alarm_event`: append the
decoded sample, then drop the oldest entry when the length exceeds
`max(1, 30 * frequency)`. -/
def handle_alarm_event_history {α : Type} (frequency : Nat)
    (hist : List α) (x : α) : List α :=
  let h := hist ++ [x]
  let maxHist := max 1 (30 * frequency)
  if maxHist < h.length then h.drop 1 else h

/-! ## Header timestamp guard: `PacketHandler._guard_header_timestamp` -/

/-- Python's `o or d` for an optional integer (`None` and `0` are falsy). -/
def pyOrNat (o : Option Nat) (d : Nat) : Nat :=
  match o with
  | none => d
  | some n => if n = 0 then d else n

/-- `PacketHandler._guard_header_timestamp`: flag future drift and
backsteps beyond tolerance, and unconditionally update
`_last_header_ts_ms := max(ts_ms, _last_header_ts_ms or ts_ms)`.
Returns the new `_last_header_ts_ms` and the `ok` result. -/
def guard_header_timestamp (futureSlackMs backstepTolMs nowMs : Nat)
    (lastHeaderTs : Option Nat) (tsMs : Nat) : Option Nat × Bool :=
  let okFuture := decide (tsMs ≤ nowMs + futureSlackMs)
  let okBack :=
    match lastHeaderTs with
    | none => true
    | some l => decide (l ≤ tsMs + backstepTolMs)
  (some (max tsMs (pyOrNat lastHeaderTs tsMs)), okFuture && okBack)

/-- The `_last_header_ts_ms` state after a sequence of guard calls, each
with its own wall clock `now` and header timestamp `ts`. -/
def guardFoldLast (slack tol : Nat) :
    Option Nat → List (Nat × Nat) → Option Nat
  | st, [] => st
  | st, (now, ts) :: rest =>
    guardFoldLast slack tol (guard_header_timestamp slack tol now st ts).1 rest

/-! ## Concrete instances used by witnesses and counterexamples -/

/-- A framer configuration with a 36-byte header, 52-byte reports, default
`nreports = 1` and CRC disabled. -/
def cfg36 : FramerCfg := ⟨36, 52, 1, false, false⟩

/-- A well-formed 88-byte frame (`nreports = 1`) whose payload contains the
sync sequence `A5 5A` at interior offset 10. -/
def frameInteriorSync : List Nat :=
  [0xA5, 0x5A, 0x01, 0x00] ++ List.replicate 32 0 ++
    (List.replicate 10 0 ++ [0xA5, 0x5A] ++ List.replicate 40 7)

/-- A well-formed 36-byte header-only frame (`pre2` bit 3 set). -/
def frameHeaderOnly : List Nat :=
  [0x5A, 0xA5, 0x01, 0x08] ++ List.replicate 32 3

/-- A 36-byte buffer whose header has `nreports = 0` in `pre1` and the
header-only bit clear in `pre2`. -/
def headerNreportsZero : List Nat :=
  [0xA5, 0x5A, 0x00, 0x00] ++ List.replicate 32 0

/-- A framer configuration with a 44-byte header and CRC enabled, strict. -/
def cfgCrc44 : FramerCfg := ⟨44, 52, 1, true, true⟩

/-- A 44-byte header whose trailing 4 bytes are the little-endian CRC-32 of
its bytes 0..35 (but not of its bytes 0..39). -/
def headerCrcOver36 : List Nat :=
  [0xA5, 0x5A, 0x01, 0x00] ++ List.replicate 32 0 ++ [1, 2, 3, 4] ++
    [0x0E, 0x7D, 0x42, 0xB8]

/-- A full 96-byte frame for `cfgCrc44` built on `headerCrcOver36`. -/
def crcFrame44 : List Nat :=
  headerCrcOver36 ++ List.replicate 52 7

/-- A storer configuration: MAC `A1:B2:C3:D4:E5:F6`, 200 Hz, 300 s files. -/
def storerCfg0 : StorerCfg := initStorerCfg "A1:B2:C3:D4:E5:F6" 200 300 "/data"

/-- 2149 timestamps in the µs regime, each 2,000,000 µs (exactly the gap
threshold, hence never rotating) after the previous one; the cumulative
delta of the last one exceeds `0xFFFFFFFF`. -/
def overflowInputs : List Nat :=
  (List.range 2149).map (fun k => 1748262041001093 + 2000000 * k)

/-! ## Helper lemmas about sync scanning -/

theorem isSyncAt_cons_succ (a : Nat) (t : List Nat) (j : Nat) :
    isSyncAt (a :: t) (j + 1) = isSyncAt t j := by
  simp [isSyncAt, List.drop_succ_cons]

theorem isSyncAt_zero_cons (a b : Nat) (t : List Nat) :
    isSyncAt (a :: b :: t) 0 = isSyncPair a b := by
  simp [isSyncAt]

theorem isSyncAt_short (s : List Nat) (j : Nat) (h : s.length ≤ j + 1) :
    isSyncAt s j = false := by
  unfold isSyncAt
  cases hd : s.drop j with
  | nil => rfl
  | cons a t =>
    cases t with
    | nil => rfl
    | cons b t' =>
      exfalso
      have hl := List.length_drop j s
      rw [hd] at hl
      simp at hl
      omega

theorem length_of_isSyncAt {s : List Nat} {j : Nat}
    (h : isSyncAt s j = true) : j + 2 ≤ s.length := by
  by_contra hc
  rw [isSyncAt_short s j (by omega)] at h
  exact Bool.false_ne_true h

theorem findSync_eq_some (s : List Nat) (n : Nat)
    (hbefore : ∀ j, j < n → isSyncAt s j = false)
    (hat : isSyncAt s n = true) : findSync s = some n := by
  induction n generalizing s with
  | zero =>
    cases s with
    | nil => simp [isSyncAt] at hat
    | cons a t =>
      cases t with
      | nil => simp [isSyncAt, isSyncPair] at hat
      | cons b t' =>
        rw [isSyncAt_zero_cons] at hat
        unfold findSync
        simp [hat]
  | succ n ih =>
    cases s with
    | nil => simp [isSyncAt] at hat
    | cons a t =>
      cases t with
      | nil =>
        have := length_of_isSyncAt hat
        simp at this
      | cons b t' =>
        have h0 : isSyncPair a b = false := by
          have := hbefore 0 (Nat.succ_pos n)
          rwa [isSyncAt_zero_cons] at this
        unfold findSync
        rw [h0]
        have hrec : findSync (b :: t') = some n := by
          apply ih
          · intro j hj
            have := hbefore (j + 1) (by omega)
            rwa [isSyncAt_cons_succ] at this
          · rwa [isSyncAt_cons_succ] at hat
        simp [hrec]

theorem findSync_eq_none (s : List Nat)
    (h : ∀ j, isSyncAt s j = false) : findSync s = none := by
  induction s with
  | nil => rfl
  | cons a t ih =>
    cases t with
    | nil => rfl
    | cons b t' =>
      have h0 : isSyncPair a b = false := by
        have := h 0
        rwa [isSyncAt_zero_cons] at this
      unfold findSync
      rw [h0]
      have hrec : findSync (b :: t') = none := by
        apply ih
        intro j
        have := h (j + 1)
        rwa [isSyncAt_cons_succ] at this
      simp [hrec]

theorem isSyncAt_append_left (f rest : List Nat) (i : Nat)
    (h : i + 2 ≤ f.length) :
    isSyncAt (f ++ rest) i = isSyncAt f i := by
  unfold isSyncAt
  rw [List.drop_append_of_le_length (by omega)]
  cases hd : f.drop i with
  | nil =>
    exfalso
    have hl := List.length_drop i f
    rw [hd] at hl
    simp at hl
    omega
  | cons a t =>
    cases t with
    | nil =>
      exfalso
      have hl := List.length_drop i f
      rw [hd] at hl
      simp at hl
      omega
    | cons b t' => simp

theorem isSyncAt_append_length (f rest : List Nat) :
    isSyncAt (f ++ rest) f.length = isSyncAt rest 0 := by
  unfold isSyncAt
  rw [List.drop_left, List.drop_zero]

theorem hlen_le_expectedTotalOf (hlen rlen ndef : Nat) (h : List Nat) :
    hlen ≤ expectedTotalOf hlen rlen ndef h := by
  unfold expectedTotalOf
  dsimp only
  split
  · exact le_rfl
  · exact Nat.le_add_right _ _

theorem WFframe_iff {cfg : FramerCfg} {f : List Nat} :
    WFframe cfg f = true ↔
      isSyncAt f 0 = true ∧
      f.length = expectedTotalOf cfg.hlen cfg.rlen cfg.ndef (f.take cfg.hlen) := by
  simp [WFframe]

theorem WFframe_hlen_le {cfg : FramerCfg} {f : List Nat}
    (h : WFframe cfg f = true) : cfg.hlen ≤ f.length := by
  rw [WFframe_iff] at h
  rw [h.2]
  exact hlen_le_expectedTotalOf _ _ _ _

/-- One good extraction step: a buffer consisting of a well-formed frame
followed by either nothing or a stream starting with a sync word yields
exactly that frame and consumes exactly its bytes. -/
theorem framerCore_emit (cfg : FramerCfg) (f rest : List Nat)
    (hcrc : cfg.crcEnabled = false)
    (hwf : WFframe cfg f = true)
    (hrest : rest = [] ∨ (isSyncAt rest 0 = true ∧ 2 ≤ rest.length)) :
    framerCore cfg (f ++ rest) = (some f, rest) := by
  obtain ⟨hsync, hflen⟩ := WFframe_iff.mp hwf
  have hfh : cfg.hlen ≤ f.length := WFframe_hlen_le hwf
  have h1 : ¬ ((f ++ rest).length < cfg.hlen) := by
    rw [List.length_append]; omega
  have h2 : ¬ (cfg.crcEnabled = true ∧ 40 ≤ cfg.hlen ∧
      storedHeaderCrc ((f ++ rest).take cfg.hlen) ≠
        crc32_header_without_crc ((f ++ rest).take cfg.hlen)) := by
    rintro ⟨he, -, -⟩
    rw [hcrc] at he
    cases he
  have hE : expectedTotalOf cfg.hlen cfg.rlen cfg.ndef
      ((f ++ rest).take cfg.hlen) = f.length := by
    rw [List.take_append_of_le_length hfh]
    exact hflen.symm
  unfold framerCore
  rw [if_neg h1]
  simp only [if_neg h2]
  unfold framerTail
  simp only [hE]
  rw [if_neg (by rw [List.length_append]; omega)]
  rcases hrest with hnil | ⟨hs, h2r⟩
  · subst hnil
    rw [if_neg (by rintro ⟨hlen2, -⟩; simp at hlen2)]
    simp [List.take_left, List.drop_left]
  · rw [if_neg (by
      rintro ⟨-, hfalse⟩
      rw [isSyncAt_append_length, hs] at hfalse
      cases hfalse)]
    simp only [List.take_left, List.drop_left]
    rw [if_neg (by rintro ⟨-, hfalse⟩; rw [hs] at hfalse; cases hfalse)]

/-- One invocation of the framer on garbage (containing no sync word start)
followed by a well-formed frame and a well-formed remainder: the garbage is
discarded and the frame is emitted. -/
theorem framerStep_emit (cfg : FramerCfg) (g f rest : List Nat)
    (hcrc : cfg.crcEnabled = false) (hh : 4 ≤ cfg.hlen)
    (hwf : WFframe cfg f = true)
    (hrest : rest = [] ∨ (isSyncAt rest 0 = true ∧ 2 ≤ rest.length))
    (hg : ∀ j, j < g.length → isSyncAt (g ++ (f ++ rest)) j = false) :
    framerStep cfg (g ++ (f ++ rest)) = (some f, rest) := by
  have hf2 : 2 ≤ f.length := by
    have := WFframe_hlen_le hwf
    omega
  have hsf : isSyncAt (f ++ rest) 0 = true := by
    rw [isSyncAt_append_left f rest 0 (by omega)]
    exact (WFframe_iff.mp hwf).1
  have hsg : isSyncAt (g ++ (f ++ rest)) g.length = true := by
    rw [isSyncAt_append_length]
    exact hsf
  have hfind : findSync (g ++ (f ++ rest)) = some g.length :=
    findSync_eq_some _ _ hg hsg
  have hne : (g ++ (f ++ rest)).isEmpty = false := by
    have : 0 < (g ++ (f ++ rest)).length := by
      rw [List.length_append, List.length_append]
      omega
    cases hb : g ++ (f ++ rest) with
    | nil => rw [hb] at this; simp at this
    | cons x xs => rfl
  unfold framerStep
  rw [hne, hfind]
  simp only [Bool.false_eq_true, if_false]
  rw [List.drop_left]
  exact framerCore_emit cfg f rest hcrc hwf hrest

/-- The concatenation of a list of well-formed frames is empty or starts
with a sync word and has at least two bytes. -/
theorem flattenFrames_shape (cfg : FramerCfg) (l : List (List Nat))
    (hh : 4 ≤ cfg.hlen)
    (hwf : ∀ f ∈ l, WFframe cfg f = true) :
    flattenFrames l = [] ∨
      (isSyncAt (flattenFrames l) 0 = true ∧ 2 ≤ (flattenFrames l).length) := by
  cases l with
  | nil => exact Or.inl rfl
  | cons f l' =>
    right
    have hwff : WFframe cfg f = true := hwf f (List.mem_cons_self f l')
    have hf2 : 2 ≤ f.length := by
      have := WFframe_hlen_le hwff
      omega
    have hflat : flattenFrames (f :: l') = f ++ flattenFrames l' := rfl
    constructor
    · rw [hflat, isSyncAt_append_left f _ 0 (by omega)]
      exact (WFframe_iff.mp hwff).1
    · rw [hflat, List.length_append]
      omega

/-- Extraction over a buffer holding exactly a concatenation of well-formed
frames emits all of them, in order, and empties the buffer. -/
theorem framerRun_flatten (cfg : FramerCfg)
    (hcrc : cfg.crcEnabled = false) (hh : 4 ≤ cfg.hlen) :
    ∀ l : List (List Nat), (∀ f ∈ l, WFframe cfg f = true) →
      framerRun cfg (l.length + 1) (flattenFrames l) = (l, []) := by
  intro l
  induction l with
  | nil => intro _; rfl
  | cons f l' ih =>
    intro hwf
    have hstep : framerStep cfg (flattenFrames (f :: l')) =
        (some f, flattenFrames l') := by
      have := framerStep_emit cfg [] f (flattenFrames l') hcrc hh
        (hwf f (List.mem_cons_self f l'))
        (flattenFrames_shape cfg l' hh (fun x hx => hwf x (List.mem_cons_of_mem f hx)))
        (by intro j hj; simp at hj)
      simpa using this
    have hrest := ih (fun x hx => hwf x (List.mem_cons_of_mem f hx))
    show framerRun cfg (l'.length + 1 + 1) (flattenFrames (f :: l')) = (f :: l', [])
    unfold framerRun
    rw [hstep]
    dsimp only
    rw [hrest]

theorem framerStep_fst_none (cfg : FramerCfg) (buf : List Nat)
    (h : findSync buf = none) : (framerStep cfg buf).1 = none := by
  unfold framerStep
  split
  · rfl
  · rw [h]

theorem framerRun_fst_nil (cfg : FramerCfg) (buf : List Nat) (n : Nat)
    (h : (framerStep cfg buf).1 = none) :
    (framerRun cfg (n + 1) buf).1 = [] := by
  unfold framerRun
  rcases hs : framerStep cfg buf with ⟨o, b⟩
  rw [hs] at h
  dsimp at h
  subst h
  rfl

/-- Claim C1 (amended): for a byte stream of 0–3 garbage bytes followed by
any concatenation of well-formed frames, provided no sync word starts
inside the garbage prefix (in particular no spurious sync forms at the
garbage/frame junction), repeated extraction emits exactly those frames,
in order, with no losses — even when a sync-word byte sequence appears at
an interior offset of a frame's payload. -/
theorem c1_framer_emits_all_frames (cfg : FramerCfg) (g : List Nat)
    (l : List (List Nat))
    (hcrc : cfg.crcEnabled = false) (hh : 4 ≤ cfg.hlen)
    (hg3 : g.length ≤ 3)
    (hwf : ∀ f ∈ l, WFframe cfg f = true)
    (hg : ∀ j, j < g.length → isSyncAt (g ++ flattenFrames l) j = false) :
    (framerRun cfg (l.length + 1) (g ++ flattenFrames l)).1 = l := by
  cases l with
  | nil =>
    apply framerRun_fst_nil
    apply framerStep_fst_none
    apply findSync_eq_none
    intro j
    by_cases hj : j < g.length
    · exact hg j hj
    · apply isSyncAt_short
      have : (g ++ flattenFrames ([] : List (List Nat))).length = g.length := by
        simp [flattenFrames]
      omega
  | cons f l' =>
    have hstep : framerStep cfg (g ++ (f ++ flattenFrames l')) =
        (some f, flattenFrames l') :=
      framerStep_emit cfg g f (flattenFrames l') hcrc hh
        (hwf f (List.mem_cons_self f l'))
        (flattenFrames_shape cfg l' hh fun x hx => hwf x (List.mem_cons_of_mem f hx))
        hg
    show (framerRun cfg (l'.length + 1 + 1) (g ++ flattenFrames (f :: l'))).1 = f :: l'
    unfold framerRun
    rw [show g ++ flattenFrames (f :: l') = g ++ (f ++ flattenFrames l') from rfl,
      hstep]
    dsimp only
    rw [framerRun_flatten cfg hcrc hh l'
      (fun x hx => hwf x (List.mem_cons_of_mem f hx))]

/-- Claim C1 counterexample (claim as stated is false): a single garbage
byte `0x5A` in front of a well-formed frame that starts with `A5 5A` forms
a spurious sync word `5A A5` at offset 0; the framer locks onto it, reads
`nreports = 10` out of what is actually a sync byte, computes a wrong
expected length (556 > 89) and emits nothing, although one complete
well-formed frame (preceded by one garbage byte) is in the buffer. -/
theorem c1_counterexample :
    WFframe cfg36 frameInteriorSync = true ∧
    ([0x5A] : List Nat).length ≤ 3 ∧
    (framerRun cfg36 2 ([0x5A] ++ flattenFrames [frameInteriorSync])).1 = [] := by
  decide

/-- Witness for `c1_framer_emits_all_frames`: one garbage byte `0x00`, one
frame with an interior `A5 5A` in its payload and one header-only frame are
all emitted, in order. -/
theorem c1_witness :
    (∀ f ∈ [frameInteriorSync, frameHeaderOnly], WFframe cfg36 f = true) ∧
    (framerRun cfg36 3
        ([0] ++ flattenFrames [frameInteriorSync, frameHeaderOnly])).1 =
      [frameInteriorSync, frameHeaderOnly] :=
  ⟨by decide,
   c1_framer_emits_all_frames cfg36 [0] [frameInteriorSync, frameHeaderOnly]
     rfl (by decide) (by decide) (by decide) (by decide)⟩

/-- Claim C2 (amended): a frame is treated as header-only iff bit 3 of
header byte 3 is set; when the nreports field (low nibble of byte 2) is 0
and that bit is clear, the framer falls back to the configured default
nreports, so the expected frame length is
`header_len + nreports_default × report_len`, not `header_len`. -/
theorem c2_expected_total (hlen rlen ndef : Nat) (header : List Nat) :
    (header.getD 2 0 % 16 = 0 → header.getD 3 0 / 8 % 2 ≠ 1 →
      expectedTotalOf hlen rlen ndef header = hlen + ndef * rlen) ∧
    (header.getD 3 0 / 8 % 2 = 1 →
      expectedTotalOf hlen rlen ndef header = hlen) := by
  constructor
  · intro hn hb
    have hbb : (header.getD 3 0 / 8 % 2 == 1) = false := by
      simp only [beq_eq_false_iff_ne, ne_eq]
      exact hb
    unfold expectedTotalOf
    dsimp only
    rw [hbb]
    simp only [Bool.false_eq_true, if_false]
    rw [if_neg (by omega)]
  · intro hb
    have hbb : (header.getD 3 0 / 8 % 2 == 1) = true := by
      simp only [beq_iff_eq]
      exact hb
    unfold expectedTotalOf
    dsimp only
    rw [hbb]
    simp

/-- Claim C2 counterexample (claim as stated is false): for the header
`headerNreportsZero` (nreports field 0, header-only bit clear) and the
configuration `hlen 36 / rlen 52 / default nreports 1`, the framer computes
an expected total of 88 ≠ 36 = header_len, and on a buffer holding exactly
those 36 header bytes it emits nothing and waits for payload bytes instead
of emitting a complete header-only frame. -/
theorem c2_counterexample :
    expectedTotalOf 36 52 1 (headerNreportsZero.take 36) = 88 ∧
    (88 : Nat) ≠ 36 ∧
    framerStep cfg36 headerNreportsZero = (none, headerNreportsZero) := by
  decide

/-- Witness for `c2_expected_total` at the concrete header
`headerNreportsZero`. -/
theorem c2_witness :
    headerNreportsZero.getD 2 0 % 16 = 0 ∧
    headerNreportsZero.getD 3 0 / 8 % 2 ≠ 1 ∧
    expectedTotalOf 36 52 1 headerNreportsZero = 36 + 1 * 52 :=
  ⟨by decide, by decide,
   (c2_expected_total 36 52 1 headerNreportsZero).1 (by decide) (by decide)⟩

/-- Claim C7 (confirmed): with `n` the effective nreports (header field if
positive, else the configured default), an undersized payload
(`len < n × rlen`) makes the decoder drop the whole frame (no records),
while an oversized payload (`len > n × rlen`) is truncated to the expected
length and decoded into exactly `n` records of `rlen` bytes each. -/
theorem c7_payload_decode (ndef rlen hdrN : Nat) (payload : List Nat)
    (n : Nat) (hn : n = if 0 < hdrN then hdrN else ndef) :
    (payload.length < n * rlen →
      parse_payload_content ndef rlen hdrN payload = none) ∧
    (n * rlen < payload.length →
      parse_payload_content ndef rlen hdrN payload =
        some (decodeReports (payload.take (n * rlen)) n rlen) ∧
      (decodeReports (payload.take (n * rlen)) n rlen).length = n ∧
      ∀ r ∈ decodeReports (payload.take (n * rlen)) n rlen, r.length = rlen) := by
  constructor
  · intro h
    unfold parse_payload_content
    rw [← hn]
    rw [if_pos (by omega), if_pos h]
  · intro h
    refine ⟨?_, ?_, ?_⟩
    · unfold parse_payload_content
      rw [← hn]
      rw [if_pos (by omega), if_neg (by omega)]
    · simp [decodeReports]
    · intro r hr
      simp only [decodeReports, List.mem_map, List.mem_range] at hr
      obtain ⟨k, hk, rfl⟩ := hr
      rw [List.length_take, List.length_drop, List.length_take]
      have h1 : k * rlen + rlen ≤ n * rlen := by
        have : (k + 1) * rlen ≤ n * rlen := Nat.mul_le_mul_right rlen (by omega)
        rw [Nat.succ_mul] at this
        exact this
      omega

/-- Witness for `c7_payload_decode`: an oversized 110-byte payload is
truncated to 104 = 2 × 52 bytes, an undersized 50-byte payload is
dropped. -/
theorem c7_witness :
    2 * 52 < (List.replicate 110 (0 : Nat)).length ∧
    parse_payload_content 1 52 2 (List.replicate 110 (0 : Nat)) =
      some (decodeReports ((List.replicate 110 (0 : Nat)).take (2 * 52)) 2 52) ∧
    (List.replicate 50 (0 : Nat)).length < 2 * 52 ∧
    parse_payload_content 1 52 2 (List.replicate 50 (0 : Nat)) = none :=
  ⟨by decide,
   ((c7_payload_decode 1 52 2 (List.replicate 110 0) 2 (by decide)).2 (by decide)).1,
   by decide,
   (c7_payload_decode 1 52 2 (List.replicate 50 0) 2 (by decide)).1 (by decide)⟩

/-- Claim C8 (confirmed, for a positive sampling frequency): every decoded
sample is appended to the history; after each append the history is trimmed
by removing the oldest entry, so its length never exceeds
`30 × frequency`; this bound is preserved over any sequence of appends. -/
theorem c8_history_bound (α : Type) (freq : Nat) (hf : 1 ≤ freq) :
    (∀ (hist : List α) (x : α), hist.length ≤ 30 * freq →
      (handle_alarm_event_history freq hist x).length ≤ 30 * freq) ∧
    (∀ (hist : List α) (x : α),
      (handle_alarm_event_history freq hist x).getLast? = some x) ∧
    (∀ (hist : List α) (x : α), max 1 (30 * freq) < hist.length + 1 →
      handle_alarm_event_history freq hist x = (hist ++ [x]).drop 1) ∧
    (∀ (hist recs : List α), hist.length ≤ 30 * freq →
      (recs.foldl (handle_alarm_event_history freq) hist).length ≤ 30 * freq) := by
  have hmax : max 1 (30 * freq) = 30 * freq := Nat.max_eq_right (by omega)
  have hbound : ∀ (hist : List α) (x : α), hist.length ≤ 30 * freq →
      (handle_alarm_event_history freq hist x).length ≤ 30 * freq := by
    intro hist x hlen
    unfold handle_alarm_event_history
    dsimp only
    split
    · next hlt =>
      rw [hmax] at hlt
      rw [List.length_append] at hlt
      rw [List.length_drop, List.length_append]
      simp only [List.length_singleton] at hlt ⊢
      omega
    · next hnlt =>
      rw [hmax] at hnlt
      rw [List.length_append] at hnlt
      rw [List.length_append]
      simp only [List.length_singleton] at hnlt ⊢
      omega
  refine ⟨hbound, ?_, ?_, ?_⟩
  · intro hist x
    unfold handle_alarm_event_history
    dsimp only
    split
    · next hlt =>
      rw [hmax] at hlt
      rw [List.length_append] at hlt
      simp only [List.length_singleton] at hlt
      have h1 : 1 ≤ hist.length := by omega
      rw [List.drop_append_of_le_length h1]
      exact List.getLast?_concat _
    · exact List.getLast?_concat _
  · intro hist x hlt
    unfold handle_alarm_event_history
    dsimp only
    rw [if_pos (by rw [List.length_append]; simpa using hlt)]
  · intro hist recs
    induction recs generalizing hist with
    | nil => intro h; simpa using h
    | cons r rs ih =>
      intro h
      exact ih _ (hbound hist r h)

/-- Witness for `c8_history_bound` at frequency 200 with a full history. -/
theorem c8_witness :
    (1 : Nat) ≤ 200 ∧
    (List.replicate 6000 (0 : Nat)).length ≤ 30 * 200 ∧
    (handle_alarm_event_history 200 (List.replicate 6000 (0 : Nat)) 7).length ≤
      30 * 200 ∧
    (handle_alarm_event_history 200 (List.replicate 6000 (0 : Nat)) 7).getLast? =
      some 7 :=
  ⟨by decide, by rw [List.length_replicate],
   (c8_history_bound Nat 200 (by decide)).1 (List.replicate 6000 (0 : Nat)) 7
     (by rw [List.length_replicate]),
   (c8_history_bound Nat 200 (by decide)).2.1 (List.replicate 6000 (0 : Nat)) 7⟩

theorem max_pyOrNat_some (m ts : Nat) :
    max ts (pyOrNat (some m) ts) = max m ts := by
  show max ts (if m = 0 then ts else m) = max m ts
  by_cases h : m = 0
  · subst h
    simp
  · rw [if_neg h]
    exact Nat.max_comm ts m

theorem guardFoldLast_some (slack tol : Nat) (l : List (Nat × Nat)) :
    ∀ m : Nat, guardFoldLast slack tol (some m) l =
      some (l.foldl (fun a p => max a p.2) m) := by
  induction l with
  | nil => intro m; rfl
  | cons p rest ih =>
    intro m
    rcases p with ⟨now, ts⟩
    show guardFoldLast slack tol
      (guard_header_timestamp slack tol now (some m) ts).1 rest = _
    rw [show (guard_header_timestamp slack tol now (some m) ts).1 =
        some (max ts (pyOrNat (some m) ts)) from rfl, max_pyOrNat_some]
    exact ih (max m ts)

/-- Claim C9 (confirmed): the stored `_last_header_ts_ms` is updated on
every call — also those that report a violation, since the update does not
depend on the `ok` outcome or the wall clock — to the maximum of the
timestamps seen so far, hence it is non-decreasing and a single far-future
header raises the backstep reference for all subsequent headers. -/
theorem c9_guard_last_is_max (slack tol : Nat) :
    (∀ (now : Nat) (last : Option Nat) (ts : Nat),
      (guard_header_timestamp slack tol now last ts).1 =
      some (max ts (pyOrNat last ts))) ∧
    (∀ (now v ts : Nat), v ≤ max ts (pyOrNat (some v) ts) ∧
      ts ≤ max ts (pyOrNat (some v) ts)) ∧
    (∀ (l : List (Nat × Nat)) (now ts : Nat),
      guardFoldLast slack tol none ((now, ts) :: l) =
        some (l.foldl (fun a p => max a p.2) ts)) := by
  refine ⟨fun now last ts => rfl, ?_, ?_⟩
  · intro now v ts
    rw [max_pyOrNat_some]
    exact ⟨Nat.le_max_left v ts, Nat.le_max_right v ts⟩
  · intro l now ts
    show guardFoldLast slack tol
      (guard_header_timestamp slack tol now none ts).1 l = _
    rw [show (guard_header_timestamp slack tol now none ts).1 =
        some (max ts (pyOrNat none ts)) from rfl]
    unfold pyOrNat
    rw [Nat.max_self]
    exact guardFoldLast_some slack tol l ts

/-! ## Storer lemmas -/

theorem save_invalid_of_le (cfg : StorerCfg) (s : StorerState) (pb cur : Nat)
    (h : cur ≤ MS_THRESHOLD) :
    save cfg s pb cur =
      ((if truthy s.startDelta then s else { s with startDelta := some cur },
        []),
       some SErr.invalidTs) := by
  have h1 : ¬ (US_THRESHOLD < cur) := by
    unfold US_THRESHOLD
    unfold MS_THRESHOLD at h
    omega
  have h2 : ¬ (MS_THRESHOLD < cur) := by omega
  unfold save validate_timestamps
  rw [if_neg h1, if_neg h2]

theorem finishValidate_not_invalid (s : StorerState) (ev : List StorerEvent)
    (cur : Nat) : (finishValidate s ev cur).2.2 ≠ VOut.invalid := by
  unfold finishValidate
  dsimp only
  split
  · simp
  · split <;> simp

theorem validate_not_invalid (cfg : StorerCfg) (s : StorerState) (cur : Nat)
    (h : MS_THRESHOLD < cur) :
    (validate_timestamps cfg s cur).2.2 ≠ VOut.invalid := by
  unfold validate_timestamps
  by_cases h1 : US_THRESHOLD < cur
  · simp only [if_pos h1]
    exact finishValidate_not_invalid _ _ _
  · simp only [if_neg h1, if_pos h]
    exact finishValidate_not_invalid _ _ _

/-- Claim C10 (confirmed): when `save` rejects a below-threshold timestamp
it raises the invalid-timestamp error with no bytes written, no events, and
the counter, last-delta, stream and begin-timestamp unchanged — but if the
start-delta timestamp was unset (Python-falsy: `None` or `0`), it has
already been set to the invalid value as a side effect. -/
theorem c10_invalid_save (cfg : StorerCfg) (s : StorerState) (pb cur : Nat)
    (h : cur ≤ MS_THRESHOLD) :
    save cfg s pb cur =
      ((if truthy s.startDelta then s else { s with startDelta := some cur },
        []),
       some SErr.invalidTs) :=
  save_invalid_of_le cfg s pb cur h

/-- Witness for `c10_invalid_save`: timestamp 5 from a fresh state sets the
start-delta to 5 and raises, leaving everything else untouched. -/
theorem c10_witness :
    (5 : Nat) ≤ MS_THRESHOLD ∧
    save storerCfg0 initStorerState 16 5 =
      ((if truthy initStorerState.startDelta then initStorerState
        else { initStorerState with startDelta := some 5 }, []),
       some SErr.invalidTs) :=
  ⟨by decide, c10_invalid_save storerCfg0 initStorerState 16 5 (by decide)⟩

/-- Claim C4 (amended): `save` raises the invalid-timestamp error if and
only if the sample timestamp is at most 1,748,262,041,001 — the code's
unit-detection threshold — not the spec's 10,000,000,000. -/
theorem c4_invalid_iff (cfg : StorerCfg) (s : StorerState) (pb cur : Nat) :
    (save cfg s pb cur).2 = some SErr.invalidTs ↔ cur ≤ MS_THRESHOLD := by
  constructor
  · intro hsv
    by_contra hc
    push_neg at hc
    have hv := validate_not_invalid cfg s cur hc
    unfold save at hsv
    rcases he : validate_timestamps cfg s cur with ⟨s', ev, v⟩
    rw [he] at hsv hv
    dsimp only at hsv hv
    cases v with
    | invalid => exact hv rfl
    | raise => simp at hsv
    | bytes d bs =>
      dsimp only at hsv
      split at hsv <;> simp at hsv
  · intro h
    rw [save_invalid_of_le cfg s pb cur h]

/-- Claim C4 counterexample (claim as stated is false): the timestamp
10,000,000,000 is at the claim's threshold, so per the claim `save` must
not raise the invalid-timestamp error — but the code rejects it, because
its actual threshold is 1,748,262,041,001. -/
theorem c4_counterexample :
    (10000000000 : Nat) ≥ 10000000000 ∧
    (save storerCfg0 initStorerState 16 10000000000).2 = some SErr.invalidTs := by
  decide

theorem close_file_no_wrote (cfg : StorerCfg) (s : StorerState) (d n : Nat) :
    StorerEvent.wrote d n ∉ (close_file cfg s).2 := by
  unfold close_file
  split <;> simp

theorem setup_no_wrote (cfg : StorerCfg) (s : StorerState) (d n : Nat) :
    StorerEvent.wrote d n ∉ (setup_output_stream cfg s).2 := by
  unfold setup_output_stream
  split <;> simp

theorem finishValidate_events (s : StorerState) (ev : List StorerEvent)
    (cur : Nat) : (finishValidate s ev cur).2.1 = ev := by
  unfold finishValidate
  dsimp only
  split
  · rfl
  · split <;> rfl

theorem validate_no_wrote (cfg : StorerCfg) (s : StorerState) (cur d n : Nat) :
    StorerEvent.wrote d n ∉ (validate_timestamps cfg s cur).2.1 := by
  unfold validate_timestamps
  by_cases h1 : US_THRESHOLD < cur
  · simp only [if_pos h1]
    by_cases hg : truthy (if truthy s.startDelta then s
        else { s with startDelta := some cur }).lastDelta = true ∧
        (if truthy s.startDelta then s
          else { s with startDelta := some cur }).lastDelta.getD 0 +
          MICRO_GAP_US < cur
    · simp only [if_pos hg, finishValidate_events]
      exact close_file_no_wrote _ _ _ _
    · simp only [if_neg hg, finishValidate_events]
      simp
  · by_cases h2 : MS_THRESHOLD < cur
    · simp only [if_neg h1, if_pos h2]
      by_cases hg : truthy (if truthy s.startDelta then s
          else { s with startDelta := some cur }).lastDelta = true ∧
          (if truthy s.startDelta then s
            else { s with startDelta := some cur }).lastDelta.getD 0 +
            MILLI_GAP_MS < cur
      · simp only [if_pos hg, finishValidate_events]
        exact close_file_no_wrote _ _ _ _
      · simp only [if_neg hg, finishValidate_events]
        simp
    · simp only [if_neg h1, if_neg h2]
      simp

theorem finishValidate_bytes (s : StorerState) (ev : List StorerEvent)
    (cur d : Nat) (bs : List Nat)
    (h : (finishValidate s ev cur).2.2 = VOut.bytes d bs) :
    d < 4294967296 ∧ bs = toBytes4LE d := by
  unfold finishValidate at h
  dsimp only at h
  split at h
  · simp at h
  · split at h
    · next hlt =>
      obtain ⟨hd, hb⟩ := by simpa using h
      subst hd
      exact ⟨hlt, hb.symm⟩
    · simp at h

theorem validate_bytes (cfg : StorerCfg) (s : StorerState) (cur d : Nat)
    (bs : List Nat)
    (h : (validate_timestamps cfg s cur).2.2 = VOut.bytes d bs) :
    d < 4294967296 ∧ bs = toBytes4LE d := by
  unfold validate_timestamps at h
  by_cases h1 : US_THRESHOLD < cur
  · simp only [if_pos h1] at h
    exact finishValidate_bytes _ _ _ _ _ h
  · by_cases h2 : MS_THRESHOLD < cur
    · simp only [if_neg h1, if_pos h2] at h
      exact finishValidate_bytes _ _ _ _ _ h
    · simp only [if_neg h1, if_neg h2] at h
      simp at h

theorem save_wrote_bound (cfg : StorerCfg) (s : StorerState)
    (pb cur d n : Nat)
    (hmem : StorerEvent.wrote d n ∈ (save cfg s pb cur).1.2) :
    d < 4294967296 ∧ n = 4 + pb ∧ (save cfg s pb cur).2 = none := by
  have hnv := validate_no_wrote cfg s cur d n
  unfold save at hmem ⊢
  rcases he : validate_timestamps cfg s cur with ⟨s', ev, v⟩
  rw [he] at hmem hnv
  dsimp only at hmem hnv ⊢
  cases v with
  | invalid => exact absurd hmem hnv
  | raise => exact absurd hmem hnv
  | bytes delta bs =>
    have hbs := validate_bytes cfg s cur delta bs (by rw [he])
    obtain ⟨hlt, hbsval⟩ := hbs
    have hbl : bs.length = 4 := by rw [hbsval]; rfl
    dsimp only at hmem ⊢
    have hdn : d = delta ∧ n = bs.length + pb := by
      split at hmem
      · simp only [List.mem_append, List.mem_singleton,
          StorerEvent.wrote.injEq] at hmem
        rcases hmem with ((h | h) | h) | h
        · exact absurd h hnv
        · exact absurd h (setup_no_wrote _ _ _ _)
        · exact h
        · exact absurd h (close_file_no_wrote _ _ _ _)
      · simp only [List.mem_append, List.mem_singleton,
          StorerEvent.wrote.injEq] at hmem
        rcases hmem with (h | h) | h
        · exact absurd h hnv
        · exact absurd h (setup_no_wrote _ _ _ _)
        · exact h
    obtain ⟨hd, hn⟩ := hdn
    subst hd
    refine ⟨hlt, by omega, ?_⟩
    split <;> rfl

theorem finishValidate_not_raise_of_start_self (s : StorerState)
    (ev : List StorerEvent) (cur : Nat) (h : s.startDelta = some cur) :
    (finishValidate s ev cur).2.2 ≠ VOut.raise := by
  unfold finishValidate
  dsimp only
  rw [show ({ s with lastDelta := some cur } : StorerState).startDelta =
    s.startDelta from rfl, h]
  simp only [Option.getD_some]
  rw [if_neg (Nat.lt_irrefl cur), if_pos (by rw [Nat.sub_self]; omega)]
  simp

theorem validate_raise_events_nil (cfg : StorerCfg) (s : StorerState)
    (cur : Nat)
    (h : (validate_timestamps cfg s cur).2.2 = VOut.raise) :
    (validate_timestamps cfg s cur).2.1 = [] := by
  unfold validate_timestamps at h ⊢
  by_cases h1 : US_THRESHOLD < cur
  · simp only [if_pos h1] at h ⊢
    by_cases hg : truthy (if truthy s.startDelta then s
        else { s with startDelta := some cur }).lastDelta = true ∧
        (if truthy s.startDelta then s
          else { s with startDelta := some cur }).lastDelta.getD 0 +
          MICRO_GAP_US < cur
    · exfalso
      simp only [if_pos hg] at h
      exact finishValidate_not_raise_of_start_self _ _ _ rfl h
    · simp only [if_neg hg] at h ⊢
      rw [finishValidate_events]
  · by_cases h2 : MS_THRESHOLD < cur
    · simp only [if_neg h1, if_pos h2] at h ⊢
      by_cases hg : truthy (if truthy s.startDelta then s
          else { s with startDelta := some cur }).lastDelta = true ∧
          (if truthy s.startDelta then s
            else { s with startDelta := some cur }).lastDelta.getD 0 +
            MILLI_GAP_MS < cur
      · exfalso
        simp only [if_pos hg] at h
        exact finishValidate_not_raise_of_start_self _ _ _ rfl h
      · simp only [if_neg hg] at h ⊢
        rw [finishValidate_events]
    · simp only [if_neg h1, if_neg h2] at h
      simp at h

theorem save_overflow_events_nil (cfg : StorerCfg) (s : StorerState)
    (pb cur : Nat)
    (h : (save cfg s pb cur).2 = some SErr.overflow) :
    (save cfg s pb cur).1.2 = [] := by
  unfold save at h ⊢
  rcases he : validate_timestamps cfg s cur with ⟨s', ev, v⟩
  rw [he] at h
  have hev := validate_raise_events_nil cfg s cur
  rw [he] at hev
  cases v with
  | invalid => simp at h
  | raise => exact hev rfl
  | bytes delta bs =>
    dsimp only at h
    split at h <;> simp at h

/-- Claim C3 (amended): there is no overflow-based rotation clause, and
deltas of accepted samples need not be non-decreasing; what holds is:
every delta actually written by `save` fits in an unsigned 32-bit integer
(each write is exactly `4 + pbytes` bytes and implies that the call
succeeded), because whenever the delta would not fit `save` raises the
overflow error having written nothing and rotated nothing in that call —
rotation happens only through the 2-second-gap and accumulated-size
conditions. -/
theorem c3_written_delta_fits_u32 (cfg : StorerCfg) (s : StorerState)
    (pb cur : Nat) :
    (∀ d n, StorerEvent.wrote d n ∈ (save cfg s pb cur).1.2 →
      d < 4294967296 ∧ n = 4 + pb ∧ (save cfg s pb cur).2 = none) ∧
    ((save cfg s pb cur).2 = some SErr.overflow →
      (save cfg s pb cur).1.2 = []) :=
  ⟨fun d n hmem => save_wrote_bound cfg s pb cur d n hmem,
   save_overflow_events_nil cfg s pb cur⟩

/-- Claim C3 counterexample (claim as stated is false): (a) the storer
accepts the timestamp sequence `t, t+10, t+5` into one file — written
deltas `[0, 10, 5]` are not non-decreasing; (b) after an invalid first
timestamp has poisoned the start-delta (claim C10's side effect), a valid
sample whose delta exceeds `0xFFFFFFFF` makes the 4-byte encoding fail
(`OverflowError`) with no file-rotation boundary ever occurring. -/
theorem c3_counterexample :
    (saveRun storerCfg0 16 initStorerState
        [1748262041001093, 1748262041001103, 1748262041001098]).errors = [] ∧
    (saveRun storerCfg0 16 initStorerState
        [1748262041001093, 1748262041001103, 1748262041001098]).deltas =
      [0, 10, 5] ∧
    (saveRun storerCfg0 16 initStorerState
        [1748262041001093, 1748262041001103, 1748262041001098]).renames = 0 ∧
    (saveRun storerCfg0 16 initStorerState [5, 6000000000000000]).renames = 0 ∧
    (saveRun storerCfg0 16 initStorerState [5, 6000000000000000]).errors =
      [SErr.invalidTs, SErr.overflow] := by
  decide

/-- Witness for `c3_written_delta_fits_u32`: the first accepted sample
writes delta 0 in a 20-byte record and the call succeeds. -/
theorem c3_witness :
    StorerEvent.wrote 0 20 ∈
      (save storerCfg0 initStorerState 16 1748262041001093).1.2 ∧
    (0 : Nat) < 4294967296 ∧ (20 : Nat) = 4 + 16 ∧
    (save storerCfg0 initStorerState 16 1748262041001093).2 = none :=
  ⟨by decide,
   ((c3_written_delta_fits_u32 storerCfg0 initStorerState 16
      1748262041001093).1 0 20 (by decide)).1,
   ((c3_written_delta_fits_u32 storerCfg0 initStorerState 16
      1748262041001093).1 0 20 (by decide)).2.1,
   ((c3_written_delta_fits_u32 storerCfg0 initStorerState 16
      1748262041001093).1 0 20 (by decide)).2.2⟩

/-- Claim C6 (amended): with CRC enabled and `header_len ≥ 40`, the framer
verifies the stored little-endian trailer (last 4 header bytes) against the
IEEE-802.3 CRC-32 of the header minus its trailer, i.e. bytes
`0..header_len-5` — which coincides with bytes 0..35 only when
`header_len = 40`. On mismatch, strict mode resynchronises to the next sync
word at offset ≥ 1 (keeping only the last byte when there is none) and
emits no frame; lenient mode continues processing the current frame
exactly as it would with the CRC check passing. -/
theorem c6_crc_check (cfg : FramerCfg) (buf : List Nat)
    (hen : cfg.crcEnabled = true) (hh : 40 ≤ cfg.hlen)
    (hbl : cfg.hlen ≤ buf.length)
    (hmm : storedHeaderCrc (buf.take cfg.hlen) ≠
      crc32_header_without_crc (buf.take cfg.hlen)) :
    crc32_header_without_crc (buf.take cfg.hlen) =
      crc32_ieee (buf.take (cfg.hlen - 4)) ∧
    (cfg.crcStrict = true → framerCore cfg buf = (none, resyncFromOne buf)) ∧
    (cfg.crcStrict = false →
      framerCore cfg buf = framerTail cfg.hlen cfg.rlen cfg.ndef buf) := by
  have hlen_take : (buf.take cfg.hlen).length = cfg.hlen := by
    rw [List.length_take]
    omega
  refine ⟨?_, ?_, ?_⟩
  · unfold crc32_header_without_crc
    rw [hlen_take, List.take_take, Nat.min_eq_left (by omega)]
  · intro hs
    unfold framerCore
    rw [if_neg (not_lt.mpr hbl)]
    rw [if_pos ⟨hen, hh, hmm⟩]
    rw [if_pos hs]
  · intro hs
    unfold framerCore
    rw [if_neg (not_lt.mpr hbl)]
    rw [if_pos ⟨hen, hh, hmm⟩]
    rw [if_neg (by rw [hs]; exact Bool.false_ne_true)]

set_option maxRecDepth 8192 in
/-- Claim C6 counterexample (claim as stated is false for
`header_len > 40`): `headerCrcOver36` is a 44-byte header whose trailer is
exactly the CRC-32 of its bytes 0..35, so per the claim the verification
must succeed and the frame be processed — but the framer compares against
the CRC-32 of bytes 0..39 (`header[:-4]`), sees a mismatch and, in strict
mode, discards the whole frame, keeping only the last buffered byte. -/
theorem c6_counterexample :
    cfgCrc44.crcEnabled = true ∧ 40 ≤ cfgCrc44.hlen ∧
    cfgCrc44.crcStrict = true ∧
    storedHeaderCrc headerCrcOver36 = crc32_ieee (headerCrcOver36.take 36) ∧
    framerStep cfgCrc44 crcFrame44 = (none, lastByte crcFrame44) := by
  decide

theorem validate_first (cfg : StorerCfg) (t : Nat) (ht : US_THRESHOLD < t) :
    validate_timestamps cfg initStorerState t =
      (⟨0, false, some t, some t, none⟩, [], VOut.bytes 0 (toBytes4LE 0)) := by
  unfold validate_timestamps finishValidate initStorerState
  simp [truthy, ht, Nat.sub_self]

theorem save_first (cfg : StorerCfg) (pb t : Nat)
    (ht : US_THRESHOLD < t) (hfd : 1 < cfg.frequency * cfg.fileDuration) :
    save cfg initStorerState pb t =
      ((⟨4 + pb, true, some t, some t, some t⟩,
        [StorerEvent.openedTemp
          (cfg.dataDir ++ "/.temp/" ++ tempFilename cfg.mac (some t)),
         StorerEvent.wrote 0 (4 + pb)]),
       none) := by
  have hsize : ¬ ((4 + pb) * cfg.frequency * cfg.fileDuration ≤ 4 + pb) := by
    rw [Nat.mul_assoc]
    have h2 : 2 ≤ cfg.frequency * cfg.fileDuration := by omega
    have := Nat.mul_le_mul_left (4 + pb) h2
    omega
  unfold save
  rw [validate_first cfg t ht]
  dsimp only
  unfold setup_output_stream
  simp [toBytes4LE, hsize]

theorem validate_second (cfg : StorerCfg) (c t1 t2 : Nat)
    (ht1 : US_THRESHOLD < t1) (hgap : t1 + MICRO_GAP_US < t2) :
    validate_timestamps cfg ⟨c, true, some t1, some t1, some t1⟩ t2 =
      (⟨0, false, some t2, some t2, some t1⟩,
       [StorerEvent.renamed
          (cfg.dataDir ++ "/.temp/" ++ tempFilename cfg.mac (some t1))
          (cfg.dataDir ++ "/" ++ dstFilename cfg.mac (some t1) (some t1))],
       VOut.bytes 0 (toBytes4LE 0)) := by
  have ht2 : US_THRESHOLD < t2 := by
    unfold US_THRESHOLD at ht1 ⊢
    unfold MICRO_GAP_US at hgap
    omega
  have ht1ne : t1 ≠ 0 := by
    unfold US_THRESHOLD at ht1
    omega
  unfold validate_timestamps finishValidate close_file
  simp [truthy, ht1ne, ht2, hgap, Nat.sub_self]

theorem save_second (cfg : StorerCfg) (pb c t1 t2 : Nat)
    (ht1 : US_THRESHOLD < t1) (hgap : t1 + MICRO_GAP_US < t2)
    (hfd : 1 < cfg.frequency * cfg.fileDuration) :
    save cfg ⟨c, true, some t1, some t1, some t1⟩ pb t2 =
      ((⟨4 + pb, true, some t2, some t2, some t2⟩,
        [StorerEvent.renamed
           (cfg.dataDir ++ "/.temp/" ++ tempFilename cfg.mac (some t1))
           (cfg.dataDir ++ "/" ++ dstFilename cfg.mac (some t1) (some t1)),
         StorerEvent.openedTemp
           (cfg.dataDir ++ "/.temp/" ++ tempFilename cfg.mac (some t2)),
         StorerEvent.wrote 0 (4 + pb)]),
       none) := by
  have hsize : ¬ ((4 + pb) * cfg.frequency * cfg.fileDuration ≤ 4 + pb) := by
    rw [Nat.mul_assoc]
    have h2 : 2 ≤ cfg.frequency * cfg.fileDuration := by omega
    have := Nat.mul_le_mul_left (4 + pb) h2
    omega
  unfold save
  rw [validate_second cfg c t1 t2 ht1 hgap]
  dsimp only
  unfold setup_output_stream
  simp [toBytes4LE, hsize]

/-- Claim C5 (amended): the open file lives in `<data_dir>/.temp` under the
name `shm_<mac12>_05_<t0>.dat` (extension `.dat`, not `.part`), where
`mac12` is the MAC with colons stripped and `t0` the window's first sample
timestamp; on rotation it is renamed via `os.replace` into the data
directory as `shm_<mac12>_05_<t0>_<t1>` with no extension, where `t1` is
the window's last sample timestamp. -/
theorem c5_file_naming (rawMac dataDir : String) (freq dur pb t1 t2 : Nat)
    (ht1 : US_THRESHOLD < t1) (hgap : t1 + MICRO_GAP_US < t2)
    (hfd : 1 < freq * dur) :
    tempFilename (stripColons rawMac) (some t1) =
      "shm_" ++ stripColons rawMac ++ "_05_" ++ toString t1 ++ ".dat" ∧
    dstFilename (stripColons rawMac) (some t1) (some t1) =
      "shm_" ++ stripColons rawMac ++ "_05_" ++ toString t1 ++ "_" ++
        toString t1 ∧
    (initStorerCfg rawMac freq dur dataDir).mac = stripColons rawMac ∧
    save (initStorerCfg rawMac freq dur dataDir) initStorerState pb t1 =
      ((⟨4 + pb, true, some t1, some t1, some t1⟩,
        [StorerEvent.openedTemp
          (dataDir ++ "/.temp/" ++ tempFilename (stripColons rawMac) (some t1)),
         StorerEvent.wrote 0 (4 + pb)]),
       none) ∧
    save (initStorerCfg rawMac freq dur dataDir)
        (save (initStorerCfg rawMac freq dur dataDir) initStorerState pb t1).1.1
        pb t2 =
      ((⟨4 + pb, true, some t2, some t2, some t2⟩,
        [StorerEvent.renamed
           (dataDir ++ "/.temp/" ++ tempFilename (stripColons rawMac) (some t1))
           (dataDir ++ "/" ++
             dstFilename (stripColons rawMac) (some t1) (some t1)),
         StorerEvent.openedTemp
           (dataDir ++ "/.temp/" ++ tempFilename (stripColons rawMac) (some t2)),
         StorerEvent.wrote 0 (4 + pb)]),
       none) := by
  refine ⟨rfl, rfl, rfl, ?_, ?_⟩
  · exact save_first (initStorerCfg rawMac freq dur dataDir) pb t1 ht1 hfd
  · rw [save_first (initStorerCfg rawMac freq dur dataDir) pb t1 ht1 hfd]
    exact save_second (initStorerCfg rawMac freq dur dataDir) pb (4 + pb)
      t1 t2 ht1 hgap hfd

/-- Claim C5 counterexample (claim as stated is false): in a concrete
two-save run with a gap rotation, the temp file the storer renames from
ends in `.dat` — not `.part` as claimed — and the destination file name
carries no `.dat` extension. -/
theorem c5_counterexample :
    (save storerCfg0 (save storerCfg0 initStorerState 16 1748262041001093).1.1
        16 1748264041001094).1.2.head? =
      some (StorerEvent.renamed
        "/data/.temp/shm_A1B2C3D4E5F6_05_1748262041001093.dat"
        "/data/shm_A1B2C3D4E5F6_05_1748262041001093_1748262041001093") ∧
    ("/data/.temp/shm_A1B2C3D4E5F6_05_1748262041001093.dat" : String) ≠
      "/data/.temp/shm_A1B2C3D4E5F6_05_1748262041001093.part" ∧
    ("/data/shm_A1B2C3D4E5F6_05_1748262041001093_1748262041001093" : String) ≠
      "/data/shm_A1B2C3D4E5F6_05_1748262041001093_1748262041001093.dat" := by
  decide

/-- Witness for `c5_file_naming` at a concrete MAC, directory and pair of
timestamps 2,000,001 µs apart. -/
theorem c5_witness :
    US_THRESHOLD < 1748262041001093 ∧
    1748262041001093 + MICRO_GAP_US < 1748264041001094 ∧
    (1 : Nat) < 200 * 300 ∧
    tempFilename (stripColons "A1:B2:C3:D4:E5:F6") (some 1748262041001093) =
      "shm_" ++ stripColons "A1:B2:C3:D4:E5:F6" ++ "_05_" ++
        toString 1748262041001093 ++ ".dat" ∧
    dstFilename (stripColons "A1:B2:C3:D4:E5:F6") (some 1748262041001093)
        (some 1748262041001093) =
      "shm_" ++ stripColons "A1:B2:C3:D4:E5:F6" ++ "_05_" ++
        toString 1748262041001093 ++ "_" ++ toString 1748262041001093 :=
  ⟨by decide, by decide, by decide,
   (c5_file_naming "A1:B2:C3:D4:E5:F6" "/data" 200 300 16 1748262041001093
      1748264041001094 (by decide) (by decide) (by decide)).1,
   (c5_file_naming "A1:B2:C3:D4:E5:F6" "/data" 200 300 16 1748262041001093
      1748264041001094 (by decide) (by decide) (by decide)).2.1⟩

set_option maxRecDepth 8192 in
/-- Witness for `c6_crc_check` on the concrete 96-byte frame
`crcFrame44`. -/
theorem c6_witness :
    cfgCrc44.hlen ≤ crcFrame44.length ∧
    storedHeaderCrc (crcFrame44.take cfgCrc44.hlen) ≠
      crc32_header_without_crc (crcFrame44.take cfgCrc44.hlen) ∧
    framerCore cfgCrc44 crcFrame44 = (none, resyncFromOne crcFrame44) :=
  ⟨by decide, by decide,
   (c6_crc_check cfgCrc44 crcFrame44 rfl (by decide) (by decide)
      (by decide)).2.1 rfl⟩

end SHM
